import Mathlib

/-!
# Verification of `doc_rephraser.py`

A shallow embedding of the document-rephrasing pipeline in
`src/doc_rephraser.py`, together with theorems settling the spec's claims.

The external paraphrasing model is opaque to the program, so it is modelled
as a parameter `rephraser : String → Except String String` (a successful
call returns `Except.ok output`; a raised exception is `Except.error msg`).
Filesystem and timestamp effects are modelled by passing the relevant
strings as explicit arguments.
-/

namespace DocRephraser

/-- Character-level worker for Python's `str.split()`: walk the characters,
accumulating the current word (in reverse); a whitespace character ends the
current word; empty pieces are never produced. -/
def pySplitAux : List Char → List Char → List (List Char)
  | [], acc => if acc = [] then [] else [acc.reverse]
  | c :: cs, acc =>
      if c.isWhitespace then
        if acc = [] then pySplitAux cs [] else acc.reverse :: pySplitAux cs []
      else
        pySplitAux cs (c :: acc)

/-- Python's `str.split()` with no argument: split on runs of whitespace and
discard empty pieces.  (Lean's `Char.isWhitespace` covers the space, tab,
carriage-return and newline characters that appear in the documents the
claims are about.) -/
def pySplit (s : String) : List String :=
  (pySplitAux s.data []).map String.mk

/-- Drop the leading whitespace characters of a character list. -/
def dropLeadingWs : List Char → List Char
  | [] => []
  | c :: cs => if c.isWhitespace then dropLeadingWs cs else c :: cs

/-- Python's `str.strip()` with no argument: remove leading and trailing
whitespace. -/
def pyStrip (s : String) : String :=
  String.mk ((dropLeadingWs (dropLeadingWs s.data).reverse).reverse)

/-- The formatting tuple of a run, as read and written through python-docx:
`run.bold`, `run.italic`, `run.underline`, `run.font.name`, `run.font.size`
(a `Length`, i.e. a non-negative integer number of EMU, or `None`) and
`run.font.color.rgb` (an RGB value or `None`).  `none` models Python `None`
(the attribute is inherited / unset). -/
structure RunStyle where
  bold : Option Bool
  italic : Option Bool
  underline : Option Bool
  font_name : Option String
  font_size : Option Nat
  font_color : Option Nat
deriving DecidableEq, Repr

/-- A run: a span of text plus one formatting tuple. -/
structure Run where
  text : String
  style : RunStyle
deriving DecidableEq, Repr

/-- A paragraph: its ordered runs plus paragraph-level style name and
alignment. -/
structure Paragraph where
  runs : List Run
  style : String
  alignment : Option Nat
deriving DecidableEq, Repr

/-- python-docx's `paragraph.text`: the concatenation of the texts of the
paragraph's runs. -/
def Paragraph.text (p : Paragraph) : String :=
  String.join (p.runs.map Run.text)

/-- `rephrase_text` (src/doc_rephraser.py lines 37-61): blank input is
returned unchanged; otherwise the external model is invoked and its output
is stripped; any failure of the external call is caught and the original
text returned. -/
def rephrase_text (text : String) (rephraser : String → Except String String) :
    String :=
  if pyStrip text = "" then text
  else
    match rephraser text with
    | Except.ok rephrased => pyStrip rephrased
    | Except.error _ => text

/-- The run-formatting copy (src/doc_rephraser.py lines 133-140).  Bold,
italic, underline and font name are assigned unconditionally; the font size
is assigned only under Python truthiness (`if run.font.size:`), so a `None`
or zero size leaves the fresh run's size `None`; the color is assigned only
when `run.font.color.rgb` is truthy, and an `RGBColor` is a non-empty
string, hence truthy whenever present. -/
def copyStyle (style : RunStyle) : RunStyle :=
  { bold := style.bold
    italic := style.italic
    underline := style.underline
    font_name := style.font_name
    font_size :=
      match style.font_size with
      | some sz => if sz = 0 then none else some sz
      | none => none
    font_color :=
      match style.font_color with
      | some c => some c
      | none => none }

/-- The run re-segmentation loop (src/doc_rephraser.py lines 116-130):
`words` is the paraphrased text split into words; the original runs are
walked in order; the loop breaks as soon as the remaining word stream is
empty (`if not words[word_index:]`); each processed run takes the next
`len(run.text.split())` words, joined by single spaces and padded with one
trailing space, and receives the copied formatting. -/
def resegment : List String → List Run → List Run
  | _, [] => []
  | [], _ :: _ => []
  | w :: ws, run :: rs =>
      let run_word_count := (pySplit run.text).length
      { text := String.intercalate " " ((w :: ws).take run_word_count) ++ " "
        style := copyStyle run.style }
        :: resegment ((w :: ws).drop run_word_count) rs

/-- Per-paragraph step of `process_file` (src/doc_rephraser.py lines
107-140): rephrase the paragraph text, split it into words, and rebuild the
paragraph from the original runs via the re-segmentation loop, keeping the
paragraph style and alignment. -/
def processParagraph (para : Paragraph)
    (rephraser : String → Except String String) : Paragraph :=
  { runs := resegment (pySplit (rephrase_text para.text rephraser)) para.runs
    style := para.style
    alignment := para.alignment }

/-- Number of words of the paraphrased stream consumed before run `i` is
reached: the sum of the word counts of the earlier runs (`word_index` at
the start of iteration `i`). -/
def runOffset (runs : List Run) (i : Nat) : Nat :=
  (((runs.take i).map fun r => (pySplit r.text).length)).sum

/-- The page geometry copied per section (src/doc_rephraser.py lines
89-96): page height/width, the four margins, and the header and footer
distances.  python-docx returns a `Length` or `None` for each. -/
structure SectionGeom where
  page_height : Option Nat
  page_width : Option Nat
  left_margin : Option Nat
  right_margin : Option Nat
  top_margin : Option Nat
  bottom_margin : Option Nat
  header_distance : Option Nat
  footer_distance : Option Nat
deriving DecidableEq, Repr

/-- Assignment to `new_doc.sections[-1]`: replace the last element of the
output section list (all eight geometry fields are assigned, so the whole
geometry record is replaced).  A fresh python-docx document always has at
least one section, so the empty case does not arise in the program. -/
def setLast : List SectionGeom → SectionGeom → List SectionGeom
  | [], _ => []
  | [_], g => [g]
  | x :: y :: xs, g => x :: setLast (y :: xs) g

/-- The section-copy loop (src/doc_rephraser.py lines 87-96): for every
source section, copy its geometry onto the last section of the output
document. -/
def copy_sections (srcSections outSections : List SectionGeom) :
    List SectionGeom :=
  srcSections.foldl (fun outs s => setLast outs s) outSections

/-- Python's `name.split('.')` at the character level: split at every dot,
keeping empty pieces.  The result is never empty. -/
def splitOnDot : List Char → List (List Char)
  | [] => [[]]
  | c :: rest =>
      match splitOnDot rest with
      | [] => [[]]
      | p :: ps => if c = '.' then [] :: p :: ps else (c :: p) :: ps

/-- `input_filename.split('.')[0]`: the part of the name before its first
dot (the whole name when it has no dot). -/
def firstDotComponent (s : String) : String :=
  String.mk ((splitOnDot s.data).headD [])

/-- The output filename (src/doc_rephraser.py line 147):
`f"rephrased_{input_filename.split('.')[0]}_{timestamp}.docx"`.  The
timestamp string (`datetime.now().strftime("%Y%m%d_%H%M%S")`) is passed as
a parameter. -/
def output_filename (input_filename timestamp : String) : String :=
  "rephrased_" ++ firstDotComponent input_filename ++ "_" ++ timestamp
    ++ ".docx"

/-- The output path (src/doc_rephraser.py line 148):
`os.path.join('output', output_filename)`. -/
def output_path (input_filename timestamp : String) : String :=
  "output/" ++ output_filename input_filename timestamp

/-- `glob.glob(os.path.join('input', '*.docx'))` restricted to one
directory entry name: the pattern `*.docx` matches names ending in `.docx`,
except hidden names (a leading dot is never matched by `*`). -/
def matchesDocxGlob (name : String) : Bool :=
  ".docx".data.isSuffixOf name.data && !(name.data.headD ' ' == '.')

/-- The file enumeration of `process_documents` (src/doc_rephraser.py line
193): only the `.docx` files of the input directory are selected. -/
def selectInputFiles (files : List String) : List String :=
  files.filter matchesDocxGlob

/-- The tally loop of `process_documents` (src/doc_rephraser.py lines
209-215): each selected file is processed; a `True` result increments the
success count, a `False` result the failure count.  The per-file outcome is
abstracted as `processOk`. -/
def tallyBatch (inputs : List String) (processOk : String → Bool) :
    Nat × Nat :=
  inputs.foldl
    (fun acc f => if processOk f then (acc.1 + 1, acc.2) else (acc.1, acc.2 + 1))
    (0, 0)

/-- `process_documents` restricted to its pure core: enumerate the
supported files, process each, and return (successful, failed). -/
def process_documents (files : List String) (processOk : String → Bool) :
    Nat × Nat :=
  tallyBatch (selectInputFiles files) processOk

/-! ### Concrete inputs used by counterexamples and witnesses -/

/-- A paraphraser stub that returns its input unchanged. -/
def idOkStub : String → Except String String := fun s => Except.ok s

/-- A paraphraser stub whose external call always fails. -/
def failStub : String → Except String String := fun _ => Except.error "model error"

/-- The paraphraser stub of the end-to-end scenario: it returns
"A fast brown fox runs." for any input. -/
def scenarioStub : String → Except String String :=
  fun _ => Except.ok "A fast brown fox runs."

/-- A paraphraser stub returning output with surrounding whitespace. -/
def padStub : String → Except String String :=
  fun _ => Except.ok "  Hi there.  "

/-- A fully populated run formatting tuple used by the concrete scenarios. -/
def scenarioStyle : RunStyle where
  bold := some true
  italic := some false
  underline := none
  font_name := some "Calibri"
  font_size := some 152400
  font_color := some 4485828

/-- The end-to-end scenario paragraph: one run holding
"The quick brown fox.". -/
def scenarioPara : Paragraph where
  runs := [{ text := "The quick brown fox.", style := scenarioStyle }]
  style := "Normal"
  alignment := none

/-- A one-run paragraph whose run text has no trailing separator. -/
def helloPara : Paragraph where
  runs := [{ text := "Hello.", style := scenarioStyle }]
  style := "Normal"
  alignment := none

/-- A two-run paragraph whose runs are normalized words followed by one
trailing separator each ("ab cd " and "ef "). -/
def alignedPara : Paragraph where
  runs :=
    [{ text := "ab cd ", style := scenarioStyle },
     { text := "ef ", style := scenarioStyle }]
  style := "Normal"
  alignment := none

/-- A two-word run used by the word-shortfall counterexample. -/
def cxRunA : Run := { text := "aa bb", style := scenarioStyle }

/-- A three-word run used by the word-shortfall counterexample. -/
def cxRunB : Run := { text := "cc dd ee", style := scenarioStyle }

/-- A run whose font size is the degenerate zero `Length`. -/
def zeroSizeRun : Run :=
  { text := "v", style := { scenarioStyle with font_size := some 0 } }

/-- A one-word run used by witnesses of the re-segmentation theorems. -/
def wRun : Run := { text := "v", style := scenarioStyle }

/-- A concrete source section geometry. -/
def geomA : SectionGeom where
  page_height := some 10058400
  page_width := some 7772400
  left_margin := some 914400
  right_margin := some 914400
  top_margin := some 914400
  bottom_margin := some 914400
  header_distance := some 457200
  footer_distance := some 457200

/-- A second concrete source section geometry, distinct from `geomA`. -/
def geomB : SectionGeom := { geomA with page_height := some 9144000 }

/-- A concrete default output section geometry, distinct from both source
geometries. -/
def geomC : SectionGeom := { geomA with page_width := some 6858000 }

/-! ## Theorems about the paraphraser adapter `rephrase_text` -/

/-- Claim C4: for every empty or whitespace-only input string, the
paraphraser adapter returns the input unchanged, and it does so without
invoking the external model — the result is independent of which model
function is supplied. -/
theorem rephrase_text_blank_id (text : String)
    (r₁ r₂ : String → Except String String) (h : pyStrip text = "") :
    rephrase_text text r₁ = text ∧
      rephrase_text text r₁ = rephrase_text text r₂ := by
  constructor <;> simp [rephrase_text, h]

/-- Witness for C4 at the whitespace-only input `"  "`. -/
theorem rephrase_text_blank_id_witness :
    rephrase_text "  " idOkStub = "  " ∧
      rephrase_text "  " idOkStub = rephrase_text "  " failStub :=
  rephrase_text_blank_id "  " idOkStub failStub (by decide)

/-- Claim C5: for every input text, if the external generation-model call
raises an error, the adapter returns the original input text unchanged. -/
theorem rephrase_text_error_id (text : String)
    (rephraser : String → Except String String) (e : String)
    (h : rephraser text = Except.error e) :
    rephrase_text text rephraser = text := by
  by_cases hb : pyStrip text = ""
  · simp [rephrase_text, hb]
  · simp [rephrase_text, hb, h]

/-- Witness for C5 at input `"Hello."` with an always-failing model call. -/
theorem rephrase_text_error_id_witness :
    rephrase_text "Hello." failStub = "Hello." :=
  rephrase_text_error_id "Hello." failStub "model error" rfl

/-- Claim C10: for every non-blank input text for which the external model
call succeeds, the adapter returns the model's output with leading and
trailing whitespace stripped, not the raw output. -/
theorem rephrase_text_strips_output (text output : String)
    (rephraser : String → Except String String)
    (hnb : pyStrip text ≠ "") (hok : rephraser text = Except.ok output) :
    rephrase_text text rephraser = pyStrip output := by
  simp [rephrase_text, hnb, hok]

/-- Witness for C10: the padded model output `"  Hi there.  "` comes back
stripped to `"Hi there."`. -/
theorem rephrase_text_strips_output_witness :
    rephrase_text "Hello world." padStub = pyStrip "  Hi there.  " ∧
      pyStrip ("  Hi there.  " : String) = "Hi there." :=
  ⟨rephrase_text_strips_output "Hello world." "  Hi there.  " padStub
      (by decide) rfl,
    by decide⟩

/-! ## The end-to-end scenario (C1) -/

/-- Counterexample to claim C1 as stated: in the end-to-end scenario the
source run "The quick brown fox." has four words, so the re-segmentation
step takes only the first four words of the five-word paraphrase
"A fast brown fox runs." — the output run's text is not
"A fast brown fox runs. ". -/
theorem scenario_run_text_ne_claimed :
    (processParagraph scenarioPara scenarioStub).runs.map Run.text
      ≠ ["A fast brown fox runs. "] := by decide

/-- Claim C1 (amended): in the end-to-end scenario the output paragraph has
exactly one run; its text is "A fast brown fox " — the paraphrase's first
four words (one per word of the source run) joined by single spaces and
padded with the trailing separator, the surplus fifth word being dropped —
and its style tuple equals the source run's style tuple. -/
theorem scenario_output_run :
    (processParagraph scenarioPara scenarioStub).runs
      = [{ text := "A fast brown fox ", style := scenarioStyle }] := by decide

/-! ## Structural lemmas about the re-segmentation loop -/

theorem runOffset_zero (runs : List Run) : runOffset runs 0 = 0 := by
  simp [runOffset]

theorem runOffset_succ_cons (r : Run) (rs : List Run) (i : Nat) :
    runOffset (r :: rs) (i + 1) = (pySplit r.text).length + runOffset rs i := by
  simp [runOffset, List.take_succ_cons]

theorem resegment_cons (w : String) (ws : List String) (r : Run)
    (rs : List Run) :
    resegment (w :: ws) (r :: rs)
      = { text := String.intercalate " "
            ((w :: ws).take (pySplit r.text).length) ++ " "
          style := copyStyle r.style }
        :: resegment ((w :: ws).drop (pySplit r.text).length) rs := rfl

theorem resegment_length_le (runs : List Run) :
    ∀ words : List String, (resegment words runs).length ≤ runs.length := by
  induction runs with
  | nil => intro words; cases words <;> simp [resegment]
  | cons r rs ih =>
      intro words
      cases words with
      | nil => simp [resegment]
      | cons w ws =>
          rw [resegment_cons]
          simpa using Nat.succ_le_succ (ih _)

theorem resegment_stops (runs : List Run) :
    ∀ (words : List String) (i : Nat), words.length ≤ runOffset runs i →
      (resegment words runs).length ≤ i := by
  induction runs with
  | nil => intro words i _; simp [resegment]
  | cons r rs ih =>
      intro words i hx
      cases words with
      | nil => simp [resegment]
      | cons w ws =>
          cases i with
          | zero =>
              rw [runOffset_zero] at hx
              exact absurd hx (by simp)
          | succ i =>
              rw [runOffset_succ_cons] at hx
              rw [resegment_cons]
              have hlen :
                  ((w :: ws).drop (pySplit r.text).length).length
                    ≤ runOffset rs i := by
                rw [List.length_drop]
                omega
              exact Nat.succ_le_succ (ih _ i hlen)

theorem resegment_getElem? (runs : List Run) :
    ∀ (words : List String) (i : Nat) (r : Run),
      runOffset runs i < words.length → runs[i]? = some r →
      (resegment words runs)[i]? = some
        { text := String.intercalate " "
            ((words.drop (runOffset runs i)).take (pySplit r.text).length)
            ++ " "
          style := copyStyle r.style } := by
  induction runs with
  | nil => intro words i r _ hr; simp at hr
  | cons rr rs ih =>
      intro words i r hoff hr
      cases words with
      | nil => exact absurd hoff (by simp)
      | cons w ws =>
          cases i with
          | zero =>
              rw [List.getElem?_cons_zero] at hr
              injection hr with hr
              subst hr
              rw [resegment_cons, List.getElem?_cons_zero, runOffset_zero,
                List.drop_zero]
          | succ i =>
              rw [runOffset_succ_cons] at hoff ⊢
              rw [List.getElem?_cons_succ] at hr
              rw [resegment_cons, List.getElem?_cons_succ]
              have hoff' :
                  runOffset rs i
                    < (((w :: ws)).drop (pySplit rr.text).length).length := by
                rw [List.length_drop]
                omega
              rw [ih _ i r hoff' hr, List.drop_drop]

theorem resegment_flatten (runs : List Run)
    (h : ∀ r ∈ runs, pySplit r.text ≠ []) :
    (resegment ((runs.map fun r => pySplit r.text).flatten) runs).map Run.text
      = runs.map fun r => String.intercalate " " (pySplit r.text) ++ " " := by
  induction runs with
  | nil => rfl
  | cons r rs ih =>
      have hr : pySplit r.text ≠ [] := h r (by simp)
      have hrs : ∀ x ∈ rs, pySplit x.text ≠ [] := fun x hx => h x (by simp [hx])
      obtain ⟨w, ws, hw⟩ : ∃ w ws, pySplit r.text = w :: ws := by
        cases hpr : pySplit r.text with
        | nil => exact absurd hpr hr
        | cons a b => exact ⟨a, b, rfl⟩
      simp only [List.map_cons, List.flatten_cons]
      rw [hw]
      simp only [List.cons_append]
      rw [resegment_cons, hw]
      simp only [List.length_cons, List.take_succ_cons, List.drop_succ_cons,
        List.take_left, List.drop_left, List.map_cons]
      rw [ih hrs]

/-! ## The round-trip law (C2) -/

/-- Counterexample to claim C2 as stated: with the identity paraphraser, a
paragraph holding the single run "Hello." comes back as the run "Hello. " —
the re-segmenter pads every produced run with one trailing separator, so
the output run text differs from the original. -/
theorem roundtrip_identity_cx :
    (processParagraph helloPara idOkStub).runs.map Run.text
      ≠ helloPara.runs.map Run.text := by decide

/-- Claim C2 (amended): if the paraphraser returns the paragraph's text
unchanged, the re-segmenter reproduces the original per-run texts exactly,
provided each original run's text already has the shape the re-segmenter
produces — its words joined by single spaces followed by exactly one
trailing separator, with at least one word per run — and the word sequence
of the (stripped) paragraph text is the concatenation of the per-run word
sequences (run boundaries fall on word boundaries). -/
theorem roundtrip_identity (para : Paragraph)
    (hruns : ∀ r ∈ para.runs,
      r.text = String.intercalate " " (pySplit r.text) ++ " "
        ∧ pySplit r.text ≠ [])
    (halign : pySplit (rephrase_text para.text idOkStub)
      = (para.runs.map fun r => pySplit r.text).flatten) :
    (processParagraph para idOkStub).runs.map Run.text
      = para.runs.map Run.text := by
  show (resegment (pySplit (rephrase_text para.text idOkStub))
      para.runs).map Run.text = _
  rw [halign, resegment_flatten para.runs (fun r hr => (hruns r hr).2)]
  exact List.map_congr_left fun r hr => ((hruns r hr).1).symm

/-- Witness for C2 (amended) on the two-run paragraph with runs "ab cd "
and "ef ". -/
theorem roundtrip_identity_witness :
    (processParagraph alignedPara idOkStub).runs.map Run.text
      = alignedPara.runs.map Run.text :=
  roundtrip_identity alignedPara (by decide) (by decide)

/-! ## The per-run re-segmentation contract (C3) -/

/-- Counterexample to claim C3 as stated: the style tuple is not copied
verbatim in full — a run whose font size is the degenerate zero `Length`
is truthiness-filtered by `if run.font.size:` (line 137), so the produced
run's font size is unset rather than zero. -/
theorem resegment_zero_size_cx :
    runOffset [zeroSizeRun] 0 < (["w"] : List String).length
    ∧ zeroSizeRun.style.font_size = some 0
    ∧ (resegment ["w"] [zeroSizeRun]).map (fun r => r.style)
        ≠ [zeroSizeRun.style] := by
  refine ⟨by decide, by decide, by decide⟩

/-- Claim C3 (amended): for every run the word stream reaches (the
cumulative word count of the earlier runs is below the stream length), the
re-segmenter emits an output run at the same position whose text is the
next `len(run.text.split())` words of the stream joined by single spaces
plus the trailing separator, and whose bold, italic, underline, font name
and font color are copied verbatim; the font size is copied when it is not
the degenerate zero value, a zero size being left unset. -/
theorem resegment_run_contract (words : List String) (runs : List Run)
    (i : Nat) (hi : i < runs.length)
    (hoff : runOffset runs i < words.length) :
    ∃ out : Run,
      (resegment words runs)[i]? = some out
      ∧ out.text = String.intercalate " "
          ((words.drop (runOffset runs i)).take
            (pySplit (runs[i]).text).length) ++ " "
      ∧ out.style.bold = (runs[i]).style.bold
      ∧ out.style.italic = (runs[i]).style.italic
      ∧ out.style.underline = (runs[i]).style.underline
      ∧ out.style.font_name = (runs[i]).style.font_name
      ∧ out.style.font_color = (runs[i]).style.font_color
      ∧ ((runs[i]).style.font_size = some 0 →
          out.style.font_size = none)
      ∧ ((runs[i]).style.font_size ≠ some 0 →
          out.style.font_size = (runs[i]).style.font_size) := by
  have hr : runs[i]? = some runs[i] := List.getElem?_eq_getElem hi
  refine ⟨_, resegment_getElem? runs words i (runs[i]) hoff hr,
    rfl, rfl, rfl, rfl, rfl, ?_, ?_, ?_⟩
  · show (copyStyle (runs[i]).style).font_color = _
    cases hc : (runs[i]).style.font_color <;> simp [copyStyle, hc]
  · intro h0
    show (copyStyle (runs[i]).style).font_size = none
    simp [copyStyle, h0]
  · intro hne
    show (copyStyle (runs[i]).style).font_size = _
    cases hs : (runs[i]).style.font_size with
    | none => simp [copyStyle, hs]
    | some sz =>
        have hsz : sz ≠ 0 := by
          rintro rfl
          exact hne hs
        simp [copyStyle, hs, hsz]

/-- Witness for C3 (amended): the first run of a concrete two-run list
receives the first word of the stream, padded. -/
theorem resegment_run_contract_witness :
    ∃ out : Run,
      (resegment ["w", "x"] [wRun, cxRunA])[0]? = some out
        ∧ out.text = "w " := by
  obtain ⟨out, h1, h2, _⟩ :=
    resegment_run_contract ["w", "x"] [wRun, cxRunA] 0 (by decide) (by decide)
  refine ⟨out, h1, ?_⟩
  rw [h2]
  decide

/-! ## The word-shortfall edge case (C6) -/

/-- Counterexample to claim C6 as stated: with original run word counts
[2, 3] and a four-word stream (fewer than the required five), the
re-segmenter still produces as many output runs as there are original
runs — the last run simply receives fewer words — so "fewer populated
output runs" fails. -/
theorem resegment_shortfall_cx :
    (["w", "x", "y", "z"] : List String).length
        < (([cxRunA, cxRunB].map fun r => (pySplit r.text).length).sum)
    ∧ (resegment ["w", "x", "y", "z"] [cxRunA, cxRunB]).length
        = ([cxRunA, cxRunB] : List Run).length
    ∧ (resegment ["w", "x", "y", "z"] [cxRunA, cxRunB]).map Run.text
        = ["w x ", "y z "] := by
  refine ⟨by decide, by decide, by decide⟩

/-- Claim C6 (amended): the re-segmenter never produces more output runs
than there are original runs, and it produces strictly fewer exactly in the
stopping case — when the word stream is exhausted before some run is
reached (the stream length is at most the cumulative word count of the
runs before it), iteration stops and the remaining runs are dropped.  The
embedding is a total function, so no word-stream access is out of
bounds. -/
theorem resegment_shortfall (words : List String) (runs : List Run)
    (i : Nat) (hi : i < runs.length)
    (hx : words.length ≤ runOffset runs i) :
    (resegment words runs).length ≤ runs.length
    ∧ (resegment words runs).length < runs.length :=
  ⟨resegment_length_le runs words,
    lt_of_le_of_lt (resegment_stops runs words i hx) hi⟩

/-- Witness for C6 (amended): a two-word stream is exhausted before the
second of the runs with word counts [2, 3], so only one output run is
produced. -/
theorem resegment_shortfall_witness :
    (resegment ["w", "x"] [cxRunA, cxRunB]).length
        ≤ ([cxRunA, cxRunB] : List Run).length
    ∧ (resegment ["w", "x"] [cxRunA, cxRunB]).length
        < ([cxRunA, cxRunB] : List Run).length :=
  resegment_shortfall ["w", "x"] [cxRunA, cxRunB] 1 (by decide) (by decide)

/-! ## The output filename (C7) -/

theorem splitOnDot_ne_nil (l : List Char) : splitOnDot l ≠ [] := by
  induction l with
  | nil => simp [splitOnDot]
  | cons c cs ih =>
      cases h : splitOnDot cs with
      | nil => exact absurd h ih
      | cons p ps => by_cases hc : c = '.' <;> simp [splitOnDot, h, hc]

theorem splitOnDot_first (l r : List Char) (h : '.' ∉ l) :
    (splitOnDot (l ++ '.' :: r)).headD [] = l := by
  induction l with
  | nil =>
      cases hsr : splitOnDot r with
      | nil => exact absurd hsr (splitOnDot_ne_nil r)
      | cons p ps => simp [splitOnDot, hsr]
  | cons c cs ih =>
      have hc : c ≠ '.' := fun hcc => h (hcc ▸ List.mem_cons_self c cs)
      have hcs : '.' ∉ cs := fun hm => h (List.mem_cons_of_mem c hm)
      cases hsr : splitOnDot (cs ++ '.' :: r) with
      | nil => exact absurd hsr (splitOnDot_ne_nil _)
      | cons p ps =>
          have hp : p = cs := by
            have hh := ih hcs
            rw [hsr] at hh
            simpa using hh
          simp [splitOnDot, hsr, hc, hp]

/-- Counterexample to claim C7 as stated: for the input name
"my.report.docx", whose base name without extension is "my.report", the
code's `input_filename.split('.')[0]` keeps only the part before the FIRST
dot, so the produced filename is "rephrased_my_20240101_120000.docx" and
not the claimed "rephrased_my.report_20240101_120000.docx". -/
theorem output_filename_cx :
    output_filename "my.report.docx" "20240101_120000"
        = "rephrased_my_20240101_120000.docx"
    ∧ output_filename "my.report.docx" "20240101_120000"
        ≠ "rephrased_my.report_20240101_120000.docx" := by
  refine ⟨by decide, by decide⟩

/-- Claim C7 (amended): the output filename is
`rephrased_<prefix>_<YYYYMMDD_HHMMSS>.docx`, where `<prefix>` is the input
file's base name truncated at its FIRST dot — which equals the base name
without its extension precisely when the stem contains no further dot —
and the extension is the fixed `.docx` (the only supported input type). -/
theorem output_filename_pattern (stem ext timestamp : String)
    (h : '.' ∉ stem.data) :
    output_filename (stem ++ "." ++ ext) timestamp
      = "rephrased_" ++ stem ++ "_" ++ timestamp ++ ".docx" := by
  have hdata : (stem ++ "." ++ ext).data = stem.data ++ '.' :: ext.data := by
    show (stem.data ++ '.' :: []) ++ ext.data = stem.data ++ '.' :: ext.data
    simp
  have hfc : firstDotComponent (stem ++ "." ++ ext) = stem := by
    rw [firstDotComponent, hdata, splitOnDot_first stem.data ext.data h]
  rw [output_filename, hfc]

/-- Witness for C7 (amended) at the dot-free stem "a". -/
theorem output_filename_pattern_witness :
    output_filename ("a" ++ "." ++ "docx") "20240101_120000"
      = "rephrased_" ++ "a" ++ "_" ++ "20240101_120000" ++ ".docx" :=
  output_filename_pattern "a" "docx" "20240101_120000" (by decide)

/-! ## The section-geometry copy (C8) -/

theorem setLast_ne_nil (l : List SectionGeom) (g : SectionGeom)
    (h : l ≠ []) : setLast l g ≠ [] := by
  cases l with
  | nil => exact absurd rfl h
  | cons x xs =>
      cases xs with
      | nil => simp [setLast]
      | cons y ys => simp [setLast]

theorem setLast_length (l : List SectionGeom) (g : SectionGeom) :
    (setLast l g).length = l.length := by
  induction l with
  | nil => rfl
  | cons x xs ih =>
      cases xs with
      | nil => rfl
      | cons y ys => simpa [setLast] using ih

theorem setLast_getLast? (l : List SectionGeom) (g : SectionGeom)
    (h : l ≠ []) : (setLast l g).getLast? = some g := by
  induction l with
  | nil => exact absurd rfl h
  | cons x xs ih =>
      cases xs with
      | nil => rfl
      | cons y ys =>
          have hy := ih (by simp)
          rw [show setLast (x :: y :: ys) g = x :: setLast (y :: ys) g from rfl]
          cases hs : setLast (y :: ys) g with
          | nil => exact absurd hs (setLast_ne_nil _ _ (by simp))
          | cons a b =>
              rw [hs] at hy
              rw [List.getLast?_cons_cons]
              exact hy

theorem copy_sections_length (src : List SectionGeom) :
    ∀ outs : List SectionGeom,
      (copy_sections src outs).length = outs.length := by
  induction src with
  | nil => intro outs; rfl
  | cons s src' ih =>
      intro outs
      show (copy_sections src' (setLast outs s)).length = _
      rw [ih (setLast outs s), setLast_length]

theorem copy_sections_getLast? (src : List SectionGeom) :
    ∀ outs : List SectionGeom, outs ≠ [] → src ≠ [] →
      (copy_sections src outs).getLast? = src.getLast? := by
  induction src with
  | nil => intro outs _ h; exact absurd rfl h
  | cons s src' ih =>
      intro outs houts _
      show (copy_sections src' (setLast outs s)).getLast? = _
      by_cases hs : src' = []
      · subst hs
        show (setLast outs s).getLast? = _
        rw [setLast_getLast? outs s houts]
        rfl
      · rw [ih (setLast outs s) (setLast_ne_nil outs s houts) hs]
        cases src' with
        | nil => exact absurd rfl hs
        | cons a b => rw [List.getLast?_cons_cons]

/-- Claim C8: the section-copy loop assigns the geometry of every source
section onto the LAST section of the output document, so after the loop
the output still has its original number of sections and its last section
carries the geometry of the source's LAST section, however many sections
the source has. -/
theorem copy_sections_last_geometry (src outs : List SectionGeom)
    (hsrc : src ≠ []) (houts : outs ≠ []) :
    (copy_sections src outs).length = outs.length
    ∧ (copy_sections src outs).getLast? = src.getLast? :=
  ⟨copy_sections_length src outs, copy_sections_getLast? src outs houts hsrc⟩

/-- Witness for C8: a two-section source copied over a fresh one-section
output leaves one section holding the second source geometry. -/
theorem copy_sections_last_geometry_witness :
    (copy_sections [geomA, geomB] [geomC]).length
        = ([geomC] : List SectionGeom).length
    ∧ (copy_sections [geomA, geomB] [geomC]).getLast?
        = ([geomA, geomB] : List SectionGeom).getLast? :=
  copy_sections_last_geometry [geomA, geomB] [geomC] (by decide) (by decide)

/-! ## The batch driver (C9) -/

/-- Claim C9: with an input directory holding exactly one supported
(`.docx`) file and one unsupported-extension file, only the supported file
is enumerated; when it processes successfully the tally is one success and
zero failures — the unsupported file is skipped, not counted as failed. -/
theorem batch_skips_unsupported (good bad : String)
    (processOk : String → Bool)
    (hgood : matchesDocxGlob good = true)
    (hbad : matchesDocxGlob bad = false)
    (hok : processOk good = true) :
    selectInputFiles [good, bad] = [good]
    ∧ process_documents [good, bad] processOk = (1, 0) := by
  constructor
  · simp [selectInputFiles, List.filter, hgood, hbad]
  · simp [process_documents, selectInputFiles, tallyBatch, List.filter,
      hgood, hbad, hok]

/-- Witness for C9 at the directory entries "a.docx" and "b.txt" with a
per-file processor that succeeds. -/
theorem batch_skips_unsupported_witness :
    selectInputFiles ["a.docx", "b.txt"] = ["a.docx"]
    ∧ process_documents ["a.docx", "b.txt"] (fun _ => true) = (1, 0) :=
  batch_skips_unsupported "a.docx" "b.txt" (fun _ => true)
    (by decide) (by decide) rfl

end DocRephraser
